import Mathlib

/-!
Verification of the PLC Logger agent's control-plane behaviour.

The Python sources under `src/agent/plc_agent` are shallowly embedded here:
dictionaries become association lists (`List (String × α)`), fallible
operations return `Except String α`, and wall-clock instants are rationals.
Each definition mirrors one Python function and is named after it.
-/

deriving instance DecidableEq for Except

namespace PlcLogger

/-! ### Association-list dictionaries

Python `dict` values are modelled as association lists with unique keys.
`dictGet` mirrors `d.get(k)`, `dictSet` mirrors `d[k] = v` (updates in place,
appends when absent) and `dictErase` mirrors `d.pop(k, None)` (on Python dicts
the key occurs at most once, so removing every occurrence is equivalent).
-/

def dictGet {α : Type} : List (String × α) → String → Option α
  | [], _ => none
  | (k₁, v₁) :: rest, k => if k₁ = k then some v₁ else dictGet rest k

def dictSet {α : Type} : List (String × α) → String → α → List (String × α)
  | [], k, v => [(k, v)]
  | (k₁, v₁) :: rest, k, v =>
    if k₁ = k then (k₁, v) :: rest else (k₁, v₁) :: dictSet rest k v

def dictErase {α : Type} : List (String × α) → String → List (String × α)
  | [], _ => []
  | (k₁, v₁) :: rest, k =>
    if k₁ = k then dictErase rest k else (k₁, v₁) :: dictErase rest k

theorem dictGet_dictSet_self {α : Type} (l : List (String × α)) (k : String) (v : α) :
    dictGet (dictSet l k v) k = some v := by
  induction l with
  | nil => simp [dictSet, dictGet]
  | cons hd tl ih =>
    by_cases h : hd.1 = k
    · simp [dictSet, dictGet, h]
    · simp [dictSet, dictGet, h, ih]

theorem dictGet_dictSet_ne {α : Type} (l : List (String × α)) (k k₂ : String) (v : α)
    (h : k ≠ k₂) : dictGet (dictSet l k v) k₂ = dictGet l k₂ := by
  induction l with
  | nil => simp [dictSet, dictGet, h]
  | cons hd tl ih =>
    by_cases hh : hd.1 = k
    · subst hh
      simp [dictSet, dictGet, h]
    · by_cases hk : hd.1 = k₂
      · simp [dictSet, dictGet, hh, hk, Ne.symm h]
      · simp [dictSet, dictGet, hh, hk, ih]

theorem dictGet_dictErase_self {α : Type} (l : List (String × α)) (k : String) :
    dictGet (dictErase l k) k = none := by
  induction l with
  | nil => simp [dictErase, dictGet]
  | cons hd tl ih =>
    by_cases h : hd.1 = k
    · simpa [dictErase, h] using ih
    · simp [dictErase, dictGet, h, ih]

/-- ASCII lowering of a string, element-wise on its characters. Stands in for
Python's `str.lower()` on the protocol names used by the agent. -/
def strLower (s : String) : String := ⟨s.data.map Char.toLower⟩

/-! ### C1 — `Store.mapping_health` (src/agent/plc_agent/api/store.py 313-338)

A mapping row is the per-field record kept in `Store._mappings[table]["rows"]`.
Python truthiness of `r.get("address")` means: key present with a non-empty
string value.
-/

structure MappingRow where
  protocol : Option String := none
  address  : Option String := none
  nodeId   : Option String := none
  dataType : Option String := none
deriving Repr, DecidableEq

/-- Python truthiness of an optional string field (`None` and `""` are falsy). -/
def truthy : Option String → Bool
  | none => false
  | some s => s ≠ ""

/-- Validity of one row as counted by `Store.mapping_health`: the code accepts
`address` **or** `nodeId` for opcua, `address` and `dataType` for modbus. -/
def rowOk (r : Option MappingRow) : Bool :=
  match r with
  | none => false
  | some r =>
    let p := strLower (r.protocol.getD "")
    if p = "opcua" then truthy r.address || truthy r.nodeId
    else if p = "modbus" then truthy r.address && truthy r.dataType
    else false

/-- Translation of `Store.mapping_health`, translated from store.py lines 313-338. -/
def mapping_health (rows : List (String × MappingRow)) (required_fields : List String) :
    String :=
  if rows.isEmpty then "Unmapped"
  else if required_fields.isEmpty then "Mapped"
  else
    let ok := required_fields.countP (fun f => rowOk (dictGet rows f))
    if ok = 0 then "Unmapped"
    else if ok = required_fields.length then "Mapped"
    else "Partially Mapped"

/-- Row validity exactly as the claim words it: for opcua only `address`
counts; `nodeId` is not mentioned. Used to compare the claim against the code. -/
def rowOkClaim (r : Option MappingRow) : Bool :=
  match r with
  | none => false
  | some r =>
    let p := strLower (r.protocol.getD "")
    if p = "opcua" then truthy r.address
    else if p = "modbus" then truthy r.address && truthy r.dataType
    else false

/-- The claim's table for `mapping_health`, built on `rowOkClaim`. -/
def mapping_health_claim (rows : List (String × MappingRow))
    (required_fields : List String) : String :=
  if rows.isEmpty then "Unmapped"
  else if required_fields.isEmpty then "Mapped"
  else
    let ok := required_fields.countP (fun f => rowOkClaim (dictGet rows f))
    if ok = 0 then "Unmapped"
    else if ok = required_fields.length then "Mapped"
    else "Partially Mapped"

/-- The amended table: identical to the claim's except that an opcua row is
valid when `address` or `nodeId` is present, matching the code. -/
def rowOkAmended (r : Option MappingRow) : Bool :=
  match r with
  | none => false
  | some r =>
    let p := strLower (r.protocol.getD "")
    if p = "opcua" then truthy r.address || truthy r.nodeId
    else if p = "modbus" then truthy r.address && truthy r.dataType
    else false

/-- Amended `mapping_health` specification table. -/
def mapping_health_amended (rows : List (String × MappingRow))
    (required_fields : List String) : String :=
  if rows.isEmpty then "Unmapped"
  else if required_fields.isEmpty then "Mapped"
  else
    let ok := required_fields.countP (fun f => rowOkAmended (dictGet rows f))
    if ok = 0 then "Unmapped"
    else if ok = required_fields.length then "Mapped"
    else "Partially Mapped"

/-- A single opcua row carrying only a `nodeId` (no `address`). -/
def nodeOnlyRow : MappingRow :=
  { protocol := some "opcua", nodeId := some "ns=2;s=Device1.Current" }

/-- C1 counterexample: on a mapping whose single opcua row has a `nodeId` but
no `address`, the code reports `Mapped` while the claim's table (address-only
validity for opcua) predicts `Unmapped`. -/
theorem mapping_health_claim_ce :
    mapping_health [("r_current", nodeOnlyRow)] ["r_current"] = "Mapped" ∧
    mapping_health_claim [("r_current", nodeOnlyRow)] ["r_current"] = "Unmapped" := by
  constructor <;> decide

/-- C1 (amended): `mapping_health` is a pure function of the rows dictionary
and the required keys and agrees everywhere with the amended table: `Unmapped`
when the rows dictionary is empty, `Mapped` when no keys are required, and
otherwise with `ok` = the number of required keys whose row is valid
(`address` or `nodeId` present for opcua; `address` and `dataType` for
modbus): `ok = 0 → Unmapped`, `ok = |required| → Mapped`, else
`Partially Mapped`. -/
theorem mapping_health_matches_amended_table (rows : List (String × MappingRow))
    (required_fields : List String) :
    mapping_health rows required_fields = mapping_health_amended rows required_fields := by
  unfold mapping_health mapping_health_amended rowOk rowOkAmended
  rfl

/-! ### C2 — migration planning (src/agent/plc_agent/api/routers/tables.py)

`dry_run` (lines 420-451) computes DDL operations without applying them;
`migrate` (lines 464-527) applies the DDL directly and returns per-id
statuses.  The physical target is modelled as the column lists of its
tables plus the set of index names; the default sqlite target has no
schema support, so `_physical_ident` prepends `neuract__`.
-/

inductive SaType
  | saInteger
  | saFloat
  | saBoolean
  | saString
deriving Repr, DecidableEq

/-- Function `_to_sa_type` (tables.py 69-77). -/
def toSaType (ftype : String) : SaType :=
  let k := strLower ftype
  if k = "int" ∨ k = "integer" then .saInteger
  else if k = "float" ∨ k = "double" ∨ k = "number" then .saFloat
  else if k = "bool" ∨ k = "boolean" then .saBoolean
  else .saString

/-- Function `_sa_type_to_sql` (tables.py 454-461). -/
def saTypeToSql : SaType → String
  | .saInteger => "INTEGER"
  | .saFloat => "REAL"
  | .saBoolean => "BOOLEAN"
  | .saString => "TEXT"

structure SchemaField where
  key : String
  type : String
deriving Repr, DecidableEq

/-- Comprehension `{f["key"]: _to_sa_type(f.get("type", "string")) for f in fields}` —
a Python dict comprehension (later duplicates overwrite in place). -/
def fieldTypes (fields : List SchemaField) : List (String × SaType) :=
  fields.foldl (fun acc f => dictSet acc f.key (toSaType f.type)) []

/-- Helper `_physical_ident` on an engine without schema support (sqlite). -/
def physName (logical : String) : String := "neuract__" ++ logical

/-- The DDL operations emitted by the planner, in the rendering `dry_run`
and `migrate` build as SQL text. `createIdx` is what
`CREATE INDEX IF NOT EXISTS idx_<name>_ts` performs during `migrate`. -/
inductive DdlOp
  | createTable (name : String) (cols : List (String × String))
  | addColumn (table : String) (col : String) (sqlType : String)
  | createIdx (table : String) (idxName : String)
deriving Repr, DecidableEq

def DdlOp.isCreateIdx : DdlOp → Bool
  | .createIdx _ _ => true
  | _ => false

/-- Exact SQL text the code would build for each operation. -/
def renderDdl : DdlOp → String
  | .createTable n cols =>
      "CREATE TABLE " ++ n ++ " (" ++
        String.intercalate ", " (cols.map (fun c => c.1 ++ " " ++ c.2)) ++ ")"
  | .addColumn t c ty => "ALTER TABLE " ++ t ++ " ADD COLUMN " ++ c ++ " " ++ ty
  | .createIdx t i => "CREATE INDEX IF NOT EXISTS " ++ i ++ " ON " ++ t ++ "(timestamp_utc)"

/-- Physical state of a user target: per-table column names plus the names of
existing indexes. -/
structure UserDb where
  tables : List (String × List String)
  indexNames : List String
deriving Repr, DecidableEq

/-- A fresh target: no tables, no indexes. -/
def freshDb : UserDb := ⟨[], []⟩

/-- Planner `dry_run` for one table (tables.py 427-450): `CREATE TABLE` with
`timestamp_utc` plus one column per schema field when the physical table is
absent, otherwise `ADD COLUMN` for each missing column. No index operation is
ever added to `ops`. -/
def dryRunOps (db : UserDb) (logical : String) (fields : List SchemaField) : List DdlOp :=
  let ft := fieldTypes fields
  let pname := physName logical
  match dictGet db.tables pname with
  | none =>
      [DdlOp.createTable pname (("timestamp_utc", "DATETIME NOT NULL") ::
        ft.map (fun kv => (kv.1, saTypeToSql kv.2)))]
  | some existing =>
      (ft.filter (fun kv => !decide (kv.1 ∈ existing))).map
        (fun kv => DdlOp.addColumn pname kv.1 (saTypeToSql kv.2))
      ++ (if "timestamp_utc" ∈ existing then []
          else [DdlOp.addColumn pname "timestamp_utc" "DATETIME NOT NULL"])

/-- Route `migrate` for one table (tables.py 477-526): create the table with
`timestamp_utc` plus one column per field (or add the missing columns), then
`CREATE INDEX IF NOT EXISTS idx_<name>_ts`. -/
def migrateTable (db : UserDb) (logical : String) (fields : List SchemaField) : UserDb :=
  let ft := fieldTypes fields
  let pname := physName logical
  let idxName := "idx_" ++ pname ++ "_ts"
  let newIdx := if idxName ∈ db.indexNames then db.indexNames else db.indexNames ++ [idxName]
  match dictGet db.tables pname with
  | none =>
      { tables := dictSet db.tables pname ("timestamp_utc" :: ft.map Prod.fst),
        indexNames := newIdx }
  | some existing =>
      let cols₁ := existing ++ (ft.filter (fun kv => !decide (kv.1 ∈ existing))).map Prod.fst
      let cols₂ := if "timestamp_utc" ∈ existing then cols₁ else cols₁ ++ ["timestamp_utc"]
      { tables := dictSet db.tables pname cols₂,
        indexNames := newIdx }

/-- Fields of scenario S1's `Transformer_1` table. -/
def t1Fields : List SchemaField := [⟨"r_current", "float"⟩, ⟨"voltage", "float"⟩]

/-- C2 counterexample: planning `Transformer_1` against a fresh target yields
exactly one `CREATE TABLE` statement and **no** `CREATE INDEX` operation,
contradicting the claim that the plan contains the CREATE INDEX operation
(the index is only created as a side effect of `migrate`, which reports
statuses, not operations). -/
theorem dry_run_fresh_no_create_index_ce :
    (dryRunOps freshDb "Transformer_1" t1Fields).map renderDdl =
      ["CREATE TABLE neuract__Transformer_1 (timestamp_utc DATETIME NOT NULL, r_current REAL, voltage REAL)"] ∧
    (dryRunOps freshDb "Transformer_1" t1Fields).any (fun op => op.isCreateIdx) = false := by
  constructor <;> decide

theorem mem_fieldTypes_key (fields : List SchemaField) :
    ∀ kv ∈ fieldTypes fields, kv.1 ∈ (fieldTypes fields).map Prod.fst := by
  intro kv h
  exact List.mem_map_of_mem Prod.fst h

/-- C2 (amended): for every device table, planning against a fresh target
yields exactly the `CREATE TABLE` operation (`timestamp_utc` non-null plus one
column per schema field) and no `CREATE INDEX` operation, and re-planning
immediately after `migrate` has been applied yields the empty operation
list. -/
theorem plan_fresh_create_then_replan_empty (logical : String) (fields : List SchemaField) :
    dryRunOps freshDb logical fields =
      [DdlOp.createTable (physName logical) (("timestamp_utc", "DATETIME NOT NULL") ::
        (fieldTypes fields).map (fun kv => (kv.1, saTypeToSql kv.2)))] ∧
    (dryRunOps freshDb logical fields).all (fun op => !op.isCreateIdx) = true ∧
    dryRunOps (migrateTable freshDb logical fields) logical fields = [] := by
  have hfresh : dryRunOps freshDb logical fields =
      [DdlOp.createTable (physName logical) (("timestamp_utc", "DATETIME NOT NULL") ::
        (fieldTypes fields).map (fun kv => (kv.1, saTypeToSql kv.2)))] := by
    simp [dryRunOps, freshDb, dictGet]
  refine ⟨hfresh, ?_, ?_⟩
  · rw [hfresh]; simp [DdlOp.isCreateIdx]
  · have hcols : dictGet (migrateTable freshDb logical fields).tables (physName logical) =
        some ("timestamp_utc" :: (fieldTypes fields).map Prod.fst) := by
      simp [migrateTable, freshDb, dictGet]
    simp only [dryRunOps, hcols]
    have hfilter : (fieldTypes fields).filter
        (fun kv => !decide (kv.1 ∈ "timestamp_utc" :: (fieldTypes fields).map Prod.fst)) = [] := by
      apply List.filter_eq_nil_iff.mpr
      intro kv hkv
      simp only [Bool.not_eq_true', decide_eq_false_iff_not, not_not]
      exact List.mem_cons_of_mem _ (mem_fieldTypes_key fields kv hkv)
    rw [hfilter]
    simp

/-! ### C3 — trigger cooldown (src/agent/plc_agent/api/routers/jobs.py 284-291)

Per table, `_run_job_loop` keeps `_job_cooldowns[job][table]` (0.0 when
absent).  After the triggers for a table have been evaluated to
`should_fire`, the code suppresses the write when
`cd_ms > 0 and (now - last_t) < cd_ms/1000`, else records the fire time and
inserts one row.  Times are `time.perf_counter()` seconds, modelled as ℚ.
-/

structure TrigEvent where
  now : ℚ
  fired : Bool
deriving Repr, DecidableEq

structure TrigStepOut where
  wrote : Bool
  suppressed : Bool
  lastT : ℚ
deriving Repr, DecidableEq

/-- One evaluated tick for one table of a trigger job (jobs.py 282-306). -/
def cooldownStep (cdMs lastT : ℚ) (e : TrigEvent) : TrigStepOut :=
  if e.fired then
    if cdMs > 0 ∧ e.now - lastT < cdMs / 1000 then ⟨false, true, lastT⟩
    else ⟨true, false, e.now⟩
  else ⟨false, false, lastT⟩

/-- Times at which rows are written for one table over a run of evaluations. -/
def writeTimes (cdMs : ℚ) : ℚ → List TrigEvent → List ℚ
  | _, [] => []
  | lastT, e :: es =>
    let s := cooldownStep cdMs lastT e
    if s.wrote then e.now :: writeTimes cdMs s.lastT es
    else writeTimes cdMs s.lastT es

/-- Number of evaluations counted as suppressed over a run. -/
def suppressedCount (cdMs : ℚ) : ℚ → List TrigEvent → Nat
  | _, [] => 0
  | lastT, e :: es =>
    let s := cooldownStep cdMs lastT e
    (if s.suppressed then 1 else 0) + suppressedCount cdMs s.lastT es

theorem writeTimes_head_gap (cdMs : ℚ) (hC : 0 < cdMs) :
    ∀ (events : List TrigEvent) (lastT w : ℚ),
      (writeTimes cdMs lastT events).head? = some w → cdMs / 1000 ≤ w - lastT := by
  intro events
  induction events with
  | nil => intro lastT w h; simp [writeTimes] at h
  | cons e es ih =>
    intro lastT w h
    by_cases hf : e.fired
    · by_cases hcd : e.now - lastT < cdMs / 1000
      · have : cooldownStep cdMs lastT e = ⟨false, true, lastT⟩ := by
          simp [cooldownStep, hf, hcd, hC]
        rw [writeTimes, this] at h
        exact ih lastT w h
      · have : cooldownStep cdMs lastT e = ⟨true, false, e.now⟩ := by
          simp [cooldownStep, hf, hcd]
        rw [writeTimes, this] at h
        simp at h
        rw [← h]
        linarith [not_lt.mp hcd]
    · have : cooldownStep cdMs lastT e = ⟨false, false, lastT⟩ := by
        simp [cooldownStep, hf]
      rw [writeTimes, this] at h
      exact ih lastT w h

theorem writeTimes_chain (cdMs : ℚ) (hC : 0 < cdMs) :
    ∀ (events : List TrigEvent) (lastT : ℚ),
      (writeTimes cdMs lastT events).Chain' (fun a b => cdMs / 1000 ≤ b - a) := by
  intro events
  induction events with
  | nil => intro lastT; simp [writeTimes]
  | cons e es ih =>
    intro lastT
    by_cases hf : e.fired
    · by_cases hcd : e.now - lastT < cdMs / 1000
      · have hstep : cooldownStep cdMs lastT e = ⟨false, true, lastT⟩ := by
          simp [cooldownStep, hf, hcd, hC]
        rw [writeTimes, hstep]
        exact ih lastT
      · have hstep : cooldownStep cdMs lastT e = ⟨true, false, e.now⟩ := by
          simp [cooldownStep, hf, hcd]
        rw [writeTimes, hstep]
        refine List.chain'_cons'.mpr ⟨fun w hw => ?_, ih e.now⟩
        exact writeTimes_head_gap cdMs hC es e.now w hw
    · have hstep : cooldownStep cdMs lastT e = ⟨false, false, lastT⟩ := by
        simp [cooldownStep, hf]
      rw [writeTimes, hstep]
      exact ih lastT

/-- C3: with a positive cooldown `cdMs`, a firing evaluation less than `cdMs`
milliseconds after the last fire writes no row, leaves the last-fire time
unchanged and is counted as suppressed; consequently the write times of any
run are spaced at least `cdMs/1000` seconds (= `cdMs` ms) apart. -/
theorem trigger_cooldown_suppression_and_gap (cdMs lastT₀ : ℚ)
    (events : List TrigEvent) (hC : 0 < cdMs) :
    (∀ t e, e.fired = true → e.now - t < cdMs / 1000 →
      cooldownStep cdMs t e = ⟨false, true, t⟩ ∧
      suppressedCount cdMs t [e] = 1) ∧
    (writeTimes cdMs lastT₀ events).Chain' (fun a b => cdMs / 1000 ≤ b - a) := by
  constructor
  · intro t e hf hlt
    have hstep : cooldownStep cdMs t e = ⟨false, true, t⟩ := by
      simp [cooldownStep, hf, hlt, hC]
    exact ⟨hstep, by simp [suppressedCount, hstep]⟩
  · exact writeTimes_chain cdMs hC events lastT₀

/-- Concrete instance of C3 at `cooldown_ms = 2000` over the S3-like sequence
of evaluations at seconds 1, 5 and 6 (all firing). -/
theorem trigger_cooldown_suppression_and_gap_witness :
    (0:ℚ) < 2000 ∧
    cooldownStep 2000 0 ⟨1, true⟩ = ⟨false, true, 0⟩ ∧
    (writeTimes 2000 0 [⟨1, true⟩, ⟨5, true⟩, ⟨6, true⟩]).Chain'
      (fun a b => (2000:ℚ) / 1000 ≤ b - a) := by
  have h := trigger_cooldown_suppression_and_gap 2000 0
    [⟨1, true⟩, ⟨5, true⟩, ⟨6, true⟩] (by norm_num)
  exact ⟨by norm_num, (h.1 0 ⟨1, true⟩ rfl (by norm_num)).1, h.2⟩

/-! ### C4 — reconnect backoff (src/agent/plc_agent/api/store.py 684-718)

On each failed attempt the loop sets
`delay = max(1.0, min(30.0, bid["delay"] * 1.7))`,
`jitter = random.uniform(0.0, 0.3 * delay)` and waits `delay + jitter`
before the next attempt; the backoff record starts at `{"delay": 1.0}`.
-/

/-- The failure branch's delay update. -/
def backoffDelayStep (d : ℚ) : ℚ := max 1 (min 30 (d * (17/10)))

/-- Delay used by the (i+1)-st consecutive failed attempt, starting from the
initial record `delay = 1.0`: the multiplication happens before the first
wait, so `backoffDelays 0 = 1.7`. -/
def backoffDelays : Nat → ℚ
  | 0 => backoffDelayStep 1
  | n + 1 => backoffDelayStep (backoffDelays n)

theorem backoffDelayStep_mul (d : ℚ) (h₁ : 1 ≤ d) (h₂ : d * (17/10) ≤ 30) :
    backoffDelayStep d = d * (17/10) := by
  unfold backoffDelayStep
  rw [min_eq_right h₂, max_eq_right]
  nlinarith

theorem backoffDelays_pow (i : Nat) (hi : i < 5) :
    backoffDelays i = (17/10 : ℚ) ^ (i + 1) := by
  have h0 : backoffDelays 0 = (17/10 : ℚ) ^ 1 := by
    show backoffDelayStep 1 = _
    rw [backoffDelayStep_mul 1 (by norm_num) (by norm_num)]; norm_num
  have h1 : backoffDelays 1 = (17/10 : ℚ) ^ 2 := by
    show backoffDelayStep (backoffDelays 0) = _
    rw [h0, backoffDelayStep_mul _ (by norm_num) (by norm_num)]; ring
  have h2 : backoffDelays 2 = (17/10 : ℚ) ^ 3 := by
    show backoffDelayStep (backoffDelays 1) = _
    rw [h1, backoffDelayStep_mul _ (by norm_num) (by norm_num)]; ring
  have h3 : backoffDelays 3 = (17/10 : ℚ) ^ 4 := by
    show backoffDelayStep (backoffDelays 2) = _
    rw [h2, backoffDelayStep_mul _ (by norm_num) (by norm_num)]; ring
  have h4 : backoffDelays 4 = (17/10 : ℚ) ^ 5 := by
    show backoffDelayStep (backoffDelays 3) = _
    rw [h3, backoffDelayStep_mul _ (by norm_num) (by norm_num)]; ring
  interval_cases i
  · exact h0
  · exact h1
  · exact h2
  · exact h3
  · exact h4

/-- C4 counterexample: the first wait after a failure is `1.7 + jitter`
seconds; even at the minimal jitter `0` (which lies in `[0, 0.3·delay]`), it
is `17/10`, outside the claimed first interval `[1, 1.3]`. -/
theorem reconnect_first_wait_ce :
    backoffDelays 0 + 0 = 17/10 ∧ ¬(backoffDelays 0 + 0 ≤ 13/10) := by
  have h : backoffDelays 0 = 17/10 := by
    have := backoffDelays_pow 0 (by norm_num)
    simpa using this
  constructor
  · rw [h]; ring
  · rw [h]; norm_num

/-- C4 (amended): over five successive failures the delays evolve by
`d ↦ max(1, min(30, 1.7·d))` from the initial record `1.0`, so with jitter
`j ∈ [0, 0.3·d]` the i-th observed wait lies in
`[(1.7)^(i+1), 1.3·(1.7)^(i+1)]` — numerically `[1.7, 2.21]`, `[2.89, 3.757]`,
`[4.913, 6.3869]`, `[8.3521, 10.85773]`, `[14.19857, 18.4581410]`. -/
theorem reconnect_backoff_intervals (i : Nat) (hi : i < 5) (j : ℚ)
    (hj₀ : 0 ≤ j) (hj₁ : j ≤ (3/10) * backoffDelays i) :
    (17/10 : ℚ) ^ (i + 1) ≤ backoffDelays i + j ∧
    backoffDelays i + j ≤ (13/10) * (17/10 : ℚ) ^ (i + 1) := by
  have h := backoffDelays_pow i hi
  rw [h] at hj₁ ⊢
  constructor
  · linarith
  · linarith

/-- Concrete instance of C4 (amended) at the fourth failure with zero jitter:
the wait `8.3521` lies in `[8.3521, 10.85773]`. -/
theorem reconnect_backoff_intervals_witness :
    (0:ℚ) ≤ 0 ∧ (0:ℚ) ≤ (3/10) * backoffDelays 3 ∧
    ((17/10 : ℚ) ^ 4 ≤ backoffDelays 3 + 0 ∧
      backoffDelays 3 + 0 ≤ (13/10) * (17/10 : ℚ) ^ 4) := by
  have hd : backoffDelays 3 = (17/10 : ℚ) ^ 4 := backoffDelays_pow 3 (by norm_num)
  refine ⟨le_refl 0, ?_, ?_⟩
  · rw [hd]; positivity
  · exact reconnect_backoff_intervals 3 (by norm_num) 0 (le_refl 0)
      (by rw [hd]; positivity)

/-! ### C5 — delete_job idempotence
(src/agent/plc_agent/api/routers/jobs.py 453-497, appdb.py 802-825)

The DELETE route looks up the job, stops its worker, finalizes the active
run (persisting it via `insert_job_run`), then `Store.delete_job` removes the
in-memory config and `appdb.delete_job` cascades over `app_jobs`,
`app_job_runs`, `app_metrics_jobs_minute` and `app_job_errors_minute`;
finally the in-memory metrics and thread bookkeeping are popped.  Run and
rollup payloads are opaque here (`Nat` stands for whatever the row holds).
-/

structure Job where
  id : String
  name : String
deriving Repr, DecidableEq

structure JobsState where
  jobs : List Job
  dbJobs : List String
  dbRuns : List (String × Nat)
  dbRollups : List (String × Nat)
  dbErrMinute : List (String × Nat)
  activeRun : List (String × Nat)
  workers : List String
deriving Repr, DecidableEq

/-- Lookup `Store.get_job` (store.py 84-86). -/
def getJob (s : JobsState) (jid : String) : Option Job :=
  s.jobs.find? (fun j => j.id == jid)

/-- Cascade `appdb.delete_job` (appdb.py 802-825): delete the config row, cascade
history/rollups/error aggregates, report whether a config row existed. -/
def appdbDeleteJob (s : JobsState) (jid : String) : Bool × JobsState :=
  (jid ∈ s.dbJobs,
   { s with
      dbJobs := s.dbJobs.filter (fun j => j ≠ jid),
      dbRuns := s.dbRuns.filter (fun r => r.1 ≠ jid),
      dbRollups := s.dbRollups.filter (fun r => r.1 ≠ jid),
      dbErrMinute := s.dbErrMinute.filter (fun r => r.1 ≠ jid) })

/-- Removal `Store.delete_job` (store.py 138-148). -/
def storeDeleteJob (s : JobsState) (jid : String) : Bool × JobsState :=
  let before := s.jobs.length
  let s₁ := { s with jobs := s.jobs.filter (fun j => j.id ≠ jid) }
  let out := appdbDeleteJob s₁ jid
  (out.1 || decide (out.2.jobs.length < before), out.2)

/-- Finalization `METRICS.get_job(job_id).end_run()` followed by `appdb.insert_job_run`
as performed by the delete route: the active run, if any, is appended to run
history. -/
def finalizeRun (s : JobsState) (jid : String) : JobsState :=
  match dictGet s.activeRun jid with
  | none => s
  | some r =>
      { s with dbRuns := s.dbRuns ++ [(jid, r)],
               activeRun := dictErase s.activeRun jid }

/-- The DELETE `/jobs/{job_id}` route (jobs.py 453-497). -/
def routerDeleteJob (s : JobsState) (jid : String) : Except String Unit × JobsState :=
  match getJob s jid with
  | none => (.error "JOB_NOT_FOUND", s)
  | some _ =>
    let s₁ := finalizeRun s jid
    let out := storeDeleteJob s₁ jid
    if out.1 then
      (.ok (),
        { out.2 with
            workers := out.2.workers.filter (fun w => w ≠ jid),
            activeRun := dictErase out.2.activeRun jid })
    else (.error "JOB_DELETE_FAILED", out.2)

theorem finalizeRun_jobs (s : JobsState) (jid : String) :
    (finalizeRun s jid).jobs = s.jobs := by
  unfold finalizeRun
  cases dictGet s.activeRun jid <;> rfl

theorem routerDeleteJob_notfound (s : JobsState) (jid : String)
    (h : getJob s jid = none) :
    routerDeleteJob s jid = (.error "JOB_NOT_FOUND", s) := by
  simp only [routerDeleteJob, h]

/-- C5: deleting an existing job succeeds and removes the config, the run
history, the minute rollups, the error aggregates and the worker; a second
`delete_job` returns `JOB_NOT_FOUND` and leaves the state unchanged. -/
theorem delete_job_idempotent (s : JobsState) (jid : String) (j : Job)
    (hj : getJob s jid = some j) :
    (routerDeleteJob s jid).1 = .ok () ∧
    getJob (routerDeleteJob s jid).2 jid = none ∧
    jid ∉ (routerDeleteJob s jid).2.dbJobs ∧
    (∀ r ∈ (routerDeleteJob s jid).2.dbRuns, r.1 ≠ jid) ∧
    (∀ r ∈ (routerDeleteJob s jid).2.dbRollups, r.1 ≠ jid) ∧
    (∀ r ∈ (routerDeleteJob s jid).2.dbErrMinute, r.1 ≠ jid) ∧
    jid ∉ (routerDeleteJob s jid).2.workers ∧
    routerDeleteJob (routerDeleteJob s jid).2 jid =
      (.error "JOB_NOT_FOUND", (routerDeleteJob s jid).2) := by
  have hjmem : j ∈ s.jobs ∧ j.id = jid := by
    refine ⟨List.mem_of_find?_eq_some hj, ?_⟩
    have := List.find?_some hj
    simpa using this
  have hlen : ((finalizeRun s jid).jobs.filter (fun x => x.id ≠ jid)).length <
      (finalizeRun s jid).jobs.length := by
    rw [finalizeRun_jobs]
    apply List.length_filter_lt_length_iff_exists.mpr
    exact ⟨j, hjmem.1, by simp [hjmem.2]⟩
  have hok : (storeDeleteJob (finalizeRun s jid) jid).1 = true := by
    simp only [storeDeleteJob, appdbDeleteJob]
    simpa using Or.inr hlen
  have hroute : routerDeleteJob s jid =
      (.ok (),
        { (storeDeleteJob (finalizeRun s jid) jid).2 with
            workers := (storeDeleteJob (finalizeRun s jid) jid).2.workers.filter
              (fun w => w ≠ jid),
            activeRun := dictErase
              (storeDeleteJob (finalizeRun s jid) jid).2.activeRun jid }) := by
    simp only [routerDeleteJob, hj, hok, if_true]
  have hjobs : (routerDeleteJob s jid).2.jobs =
      (finalizeRun s jid).jobs.filter (fun x => x.id ≠ jid) := by
    rw [hroute]; rfl
  have hgetnone : getJob (routerDeleteJob s jid).2 jid = none := by
    unfold getJob
    rw [hjobs]
    apply List.find?_eq_none.mpr
    intro x hx
    have := (List.mem_filter.mp hx).2
    simpa using this
  refine ⟨by rw [hroute], hgetnone, ?_, ?_, ?_, ?_, ?_, ?_⟩
  · rw [hroute]
    intro hmem
    have := (List.mem_filter.mp hmem).2
    simp at this
  · rw [hroute]
    intro r hmem
    have := (List.mem_filter.mp hmem).2
    simpa using this
  · rw [hroute]
    intro r hmem
    have := (List.mem_filter.mp hmem).2
    simpa using this
  · rw [hroute]
    intro r hmem
    have := (List.mem_filter.mp hmem).2
    simpa using this
  · rw [hroute]
    intro hmem
    have := (List.mem_filter.mp hmem).2
    simp at this
  · exact routerDeleteJob_notfound _ _ hgetnone

/-- Concrete instance of C5: a one-job state with history, rollups, an
active run and a live worker; the first delete empties everything for the
job and the second returns `JOB_NOT_FOUND` without change. -/
theorem delete_job_idempotent_witness :
    getJob ⟨[⟨"J1", "job one"⟩], ["J1"], [("J1", 7)], [("J1", 1)], [("J1", 2)],
        [("J1", 3)], ["J1"]⟩ "J1" = some ⟨"J1", "job one"⟩ ∧
    (routerDeleteJob ⟨[⟨"J1", "job one"⟩], ["J1"], [("J1", 7)], [("J1", 1)],
        [("J1", 2)], [("J1", 3)], ["J1"]⟩ "J1").1 = .ok () ∧
    routerDeleteJob (routerDeleteJob ⟨[⟨"J1", "job one"⟩], ["J1"], [("J1", 7)],
        [("J1", 1)], [("J1", 2)], [("J1", 3)], ["J1"]⟩ "J1").2 "J1" =
      (.error "JOB_NOT_FOUND",
        (routerDeleteJob ⟨[⟨"J1", "job one"⟩], ["J1"], [("J1", 7)], [("J1", 1)],
          [("J1", 2)], [("J1", 3)], ["J1"]⟩ "J1").2) := by
  have h := delete_job_idempotent
    ⟨[⟨"J1", "job one"⟩], ["J1"], [("J1", 7)], [("J1", 1)], [("J1", 2)],
      [("J1", 3)], ["J1"]⟩ "J1" ⟨"J1", "job one"⟩ (by decide)
  exact ⟨by decide, h.1, h.2.2.2.2.2.2.2⟩

/-! ### C6 / C9 — mapping rows: delete and copy
(src/agent/plc_agent/api/routers/mappings.py, src/agent/plc_agent/api/store.py)

State touched by the mapping routes: the catalog's device tables (id → the
persisted `deviceId` binding, `none` when unbound), the store's in-memory
`_mappings`, and the user target's `device_mappings` meta-table, whose rows
are keyed by `(table_name, field_key)`.  The upsert/import routes write
through to the meta-table (`_save_mapping_to_user_db`,
`_replace_mapping_in_user_db`); the delete route (mappings.py 251-257) calls
only `Store.delete_mapping_row` (store.py 340-348), which touches memory.
-/

structure Mapping where
  deviceId : Option String := none
  rows : List (String × MappingRow) := []
deriving Repr, DecidableEq

structure MapState where
  tables : List (String × Option String)
  mappings : List (String × Mapping)
  userRows : List (String × String)
deriving Repr, DecidableEq

/-- Read `Store.get_mapping` (store.py 241-259): falls back to the table's
persisted `deviceId` when the in-memory mapping has none. -/
def storeGetMapping (s : MapState) (tid : String) : Mapping :=
  let cur := (dictGet s.mappings tid).getD {}
  let dev := match cur.deviceId with
    | some d => some d
    | none => (dictGet s.tables tid).getD none
  { deviceId := dev, rows := cur.rows }

/-- Removal `Store.delete_mapping_row` (store.py 340-348): pops the field key from
the in-memory rows; nothing else is touched. -/
def storeDeleteMappingRow (s : MapState) (tid fk : String) : MapState :=
  let cur := (dictGet s.mappings tid).getD {}
  { s with mappings := dictSet s.mappings tid { cur with rows := dictErase cur.rows fk } }

/-- The DELETE `/mappings/{table_id}/{field_key}` route (mappings.py 251-257). -/
def routerDeleteMappingRow (s : MapState) (tid fk : String) :
    Except String Unit × MapState :=
  match dictGet s.tables tid with
  | none => (.error "TABLE_NOT_FOUND", s)
  | some _ => (.ok (), storeDeleteMappingRow s tid fk)

/-- A state holding table `T1`, an in-memory mapping row for `r_current`, and
the corresponding persisted meta-table row. -/
def mapStateCe : MapState :=
  ⟨[("T1", none)],
   [("T1", { rows := [("r_current", nodeOnlyRow)] })],
   [("neuract__T1", "r_current")]⟩

/-- C6 counterexample: deleting the `r_current` row of `T1` succeeds but the
`device_mappings` meta-table row survives untouched, contradicting the
claimed write-through delete. -/
theorem delete_mapping_row_ce :
    (routerDeleteMappingRow mapStateCe "T1" "r_current").1 = .ok () ∧
    (routerDeleteMappingRow mapStateCe "T1" "r_current").2.userRows =
      [("neuract__T1", "r_current")] := by
  constructor <;> rfl

/-- C6 (amended): for an existing table, `delete_mapping_row` removes the row
from the in-memory mapping only — a subsequent `Store.get_mapping` has no row
for the key — while the target database's `device_mappings` meta-table is
left unchanged. -/
theorem delete_mapping_row_memory_only (s : MapState) (tid fk : String)
    (d : Option String) (ht : dictGet s.tables tid = some d) :
    (routerDeleteMappingRow s tid fk).1 = .ok () ∧
    dictGet (storeGetMapping (routerDeleteMappingRow s tid fk).2 tid).rows fk = none ∧
    (routerDeleteMappingRow s tid fk).2.userRows = s.userRows := by
  have hroute : routerDeleteMappingRow s tid fk =
      (.ok (), storeDeleteMappingRow s tid fk) := by
    simp only [routerDeleteMappingRow, ht]
  refine ⟨by rw [hroute], ?_, by rw [hroute]; rfl⟩
  rw [hroute]
  simp only [storeGetMapping, storeDeleteMappingRow, dictGet_dictSet_self, Option.getD_some]
  exact dictGet_dictErase_self _ _

/-- Concrete instance of C6 (amended) on `mapStateCe`. -/
theorem delete_mapping_row_memory_only_witness :
    dictGet mapStateCe.tables "T1" = some none ∧
    dictGet (storeGetMapping (routerDeleteMappingRow mapStateCe "T1" "r_current").2
        "T1").rows "r_current" = none ∧
    (routerDeleteMappingRow mapStateCe "T1" "r_current").2.userRows =
      mapStateCe.userRows := by
  have h := delete_mapping_row_memory_only mapStateCe "T1" "r_current" none (by decide)
  exact ⟨by decide, h.2.1, h.2.2⟩

/-- Copy `Store.copy_mapping` (store.py 376-384): copies the source's rows into the
destination and deliberately leaves the destination's device binding alone. -/
def storeCopyMapping (s : MapState) (src dst : String) : MapState :=
  let srcM := (dictGet s.mappings src).getD {}
  let dstM := (dictGet s.mappings dst).getD {}
  { s with mappings := dictSet s.mappings dst { dstM with rows := srcM.rows } }

/-- C9: `copy_mapping(A→B)` sets B's rows to A's rows, keeps B's in-memory
`deviceId` and the catalog's persisted bindings unchanged, and therefore the
device binding reported by `Store.get_mapping(B)` is unchanged; A's binding is
never copied. -/
theorem copy_mapping_rows_not_device (s : MapState) (A B : String) :
    ((dictGet (storeCopyMapping s A B).mappings B).getD {}).rows =
      ((dictGet s.mappings A).getD {}).rows ∧
    ((dictGet (storeCopyMapping s A B).mappings B).getD {}).deviceId =
      ((dictGet s.mappings B).getD {}).deviceId ∧
    (storeCopyMapping s A B).tables = s.tables ∧
    (storeGetMapping (storeCopyMapping s A B) B).deviceId =
      (storeGetMapping s B).deviceId := by
  refine ⟨?_, ?_, rfl, ?_⟩
  · simp [storeCopyMapping, dictGet_dictSet_self]
  · simp [storeCopyMapping, dictGet_dictSet_self]
  · simp only [storeGetMapping, storeCopyMapping, dictGet_dictSet_self, Option.getD_some]

/-! ### C7 — gateway ports (store.py 470-538, appdb.py 475-505)

`add_gateway` strips name/host, then builds
`sorted({int(p) for p in ports if int(p) > 0 and int(p) <= 65535})`;
`INVALID_PORTS` is raised only when some `int(p)` itself raises.
`update_gateway` filters the same way in memory, but `appdb.update_gateway`
persists the **raw** patch ports (`json.dumps(patch.get("ports"))`) and the
store then syncs its in-memory copy from that DB row.
-/

/-- Python's `.strip()` on both ends. -/
def pyStrip (s : String) : String :=
  ⟨((s.data.dropWhile (fun c => c.isWhitespace)).reverse.dropWhile
      (fun c => c.isWhitespace)).reverse⟩

/-- One entry of a request's ports list: an integer, or a value on which
Python's `int()` raises. -/
inductive PVal
  | pint (n : ℤ)
  | pbad
deriving Repr, DecidableEq

def pvalInt : PVal → Option ℤ
  | .pint n => some n
  | .pbad => none

def insertSorted (x : ℤ) : List ℤ → List ℤ
  | [] => [x]
  | y :: ys => if x ≤ y then x :: y :: ys else y :: insertSorted x ys

def sortInts : List ℤ → List ℤ
  | [] => []
  | x :: xs => insertSorted x (sortInts xs)

def dedupInts : List ℤ → List ℤ
  | [] => []
  | x :: xs => if x ∈ xs then dedupInts xs else x :: dedupInts xs

/-- Python `sorted(set(l))`: the sorted duplicate-free values of `l`. -/
def sortedUnique (l : List ℤ) : List ℤ := sortInts (dedupInts l)

theorem mem_insertSorted (x a : ℤ) (l : List ℤ) :
    a ∈ insertSorted x l ↔ a = x ∨ a ∈ l := by
  induction l with
  | nil => simp [insertSorted]
  | cons y ys ih =>
    by_cases h : x ≤ y
    · simp [insertSorted, h]
    · simp only [insertSorted, if_neg h, List.mem_cons, ih]
      tauto

theorem insertSorted_nodup (x : ℤ) (l : List ℤ) (hx : x ∉ l) (hl : l.Nodup) :
    (insertSorted x l).Nodup := by
  induction l with
  | nil => simp [insertSorted]
  | cons y ys ih =>
    rw [List.nodup_cons] at hl
    by_cases h : x ≤ y
    · rw [insertSorted, if_pos h]
      exact List.nodup_cons.mpr ⟨hx, List.nodup_cons.mpr hl⟩
    · rw [insertSorted, if_neg h]
      refine List.nodup_cons.mpr ⟨?_, ih (fun hm => hx (List.mem_cons_of_mem _ hm)) hl.2⟩
      rw [mem_insertSorted]
      rintro (rfl | hm)
      · exact hx (List.mem_cons_self _ _)
      · exact hl.1 hm

theorem mem_sortInts (a : ℤ) (l : List ℤ) : a ∈ sortInts l ↔ a ∈ l := by
  induction l with
  | nil => simp [sortInts]
  | cons x xs ih => simp [sortInts, mem_insertSorted, ih]

theorem sortInts_nodup (l : List ℤ) (h : l.Nodup) : (sortInts l).Nodup := by
  induction l with
  | nil => simp [sortInts]
  | cons x xs ih =>
    rw [List.nodup_cons] at h
    exact insertSorted_nodup x (sortInts xs) (by rw [mem_sortInts]; exact h.1) (ih h.2)

theorem mem_dedupInts (a : ℤ) (l : List ℤ) : a ∈ dedupInts l ↔ a ∈ l := by
  induction l with
  | nil => simp [dedupInts]
  | cons x xs ih =>
    by_cases h : x ∈ xs
    · rw [dedupInts, if_pos h, ih]
      constructor
      · exact fun hm => List.mem_cons_of_mem _ hm
      · intro hm
        rcases List.mem_cons.mp hm with rfl | hm
        · exact h
        · exact hm
    · rw [dedupInts, if_neg h]
      simp [ih]

theorem dedupInts_nodup (l : List ℤ) : (dedupInts l).Nodup := by
  induction l with
  | nil => simp [dedupInts]
  | cons x xs ih =>
    by_cases h : x ∈ xs
    · rw [dedupInts, if_pos h]; exact ih
    · rw [dedupInts, if_neg h]
      exact List.nodup_cons.mpr ⟨by rw [mem_dedupInts]; exact h, ih⟩

theorem sortedUnique_nodup (l : List ℤ) : (sortedUnique l).Nodup :=
  sortInts_nodup _ (dedupInts_nodup l)

theorem mem_sortedUnique (a : ℤ) (l : List ℤ) : a ∈ sortedUnique l ↔ a ∈ l := by
  rw [sortedUnique, mem_sortInts, mem_dedupInts]

/-- Python `sorted({int(p) for p in ports if int(p) > 0 and int(p) <= 65535})`:
`none` when some `int(p)` raises (the `except` arm raises `INVALID_PORTS`),
otherwise the sorted duplicate-free in-range values. -/
def parsePorts (ports : List PVal) : Option (List ℤ) :=
  if ports.all (fun p => (pvalInt p).isSome) then
    some (sortedUnique ((ports.filterMap pvalInt).filter
      (fun n => decide (0 < n) && decide (n ≤ 65535))))
  else none

structure Gateway where
  id : String
  name : String
  host : String
  ports : List ℤ
  status : String := "unknown"
deriving Repr, DecidableEq

/-- Creation `Store.add_gateway` (store.py 470-505). Returns the (existing or new)
gateway together with the updated gateway list. -/
def addGateway (gws : List Gateway) (gid name host : String) (ports : List PVal) :
    Except String (Gateway × List Gateway) :=
  if pyStrip name = "" ∨ pyStrip host = "" then .error "NAME_AND_HOST_REQUIRED"
  else
    match parsePorts ports with
    | none => .error "INVALID_PORTS"
    | some ps =>
      match gws.find? (fun g => strLower g.name == strLower (pyStrip name) ||
          strLower g.host == strLower (pyStrip host)) with
      | some g => .ok (g, gws)
      | none =>
        let gw : Gateway :=
          { id := gid, name := pyStrip name, host := pyStrip host, ports := ps }
        .ok (gw, gws ++ [gw])

/-- In-memory gateway list plus the `app_gateways` rows (relevant fields). -/
structure GwState where
  mem : List Gateway
  db : List Gateway
deriving Repr, DecidableEq

/-- Update `Store.update_gateway` restricted to a ports patch (store.py 507-538):
memory gets the filtered ports, `appdb.update_gateway` stores the raw patch
ports, and when the DB row exists the in-memory entry is overwritten from the
DB's canonical copy. -/
def updateGateway (s : GwState) (gid : String) (portsPatch : List PVal) :
    Except String GwState :=
  match s.mem.find? (fun g => g.id == gid) with
  | none => .error "GATEWAY_NOT_FOUND"
  | some _ =>
    match parsePorts portsPatch with
    | none => .error "INVALID_PORTS"
    | some filtered =>
      let raw := portsPatch.filterMap pvalInt
      let mem₁ := s.mem.map (fun g => if g.id = gid then { g with ports := filtered } else g)
      match s.db.find? (fun g => g.id == gid) with
      | none => .ok { mem := mem₁, db := s.db }
      | some _ =>
        let db₁ := s.db.map (fun g => if g.id = gid then { g with ports := raw } else g)
        let mem₂ := mem₁.map (fun g => if g.id = gid then { g with ports := raw } else g)
        .ok { mem := mem₂, db := db₁ }

/-- A stored gateway with one sane port. -/
def gw0 : Gateway := { id := "gw1", name := "G", host := "h", ports := [502] }

/-- C7 counterexample: `add_gateway` with port `0` does **not** fail with
`INVALID_PORTS` — the port is silently dropped — and `update_gateway` with
ports `[0, 70000]` persists them raw and syncs them back, so the stored
gateway ends with ports outside `[1, 65535]`. -/
theorem gateway_ports_ce :
    addGateway [] "gw1" "G" "h" [.pint 0] =
      .ok ({ id := "gw1", name := "G", host := "h", ports := [] },
           [{ id := "gw1", name := "G", host := "h", ports := [] }]) ∧
    updateGateway ⟨[gw0], [gw0]⟩ "gw1" [.pint 0, .pint 70000] =
      .ok ⟨[{ gw0 with ports := [0, 70000] }], [{ gw0 with ports := [0, 70000] }]⟩ := by
  constructor
  · decide
  · decide

/-- C7 (amended): `add_gateway` raises `INVALID_PORTS` only when a port value
cannot be converted to an integer; integer ports outside `[1, 65535]` are
silently dropped, and a **newly created** gateway's ports list is
duplicate-free with every value in `[1, 65535]` (the update path can later
violate this by persisting raw patch ports, as the counterexample shows). -/
theorem add_gateway_ports_invariant (gws : List Gateway) (gid name host : String)
    (ports : List PVal)
    (hname : pyStrip name ≠ "") (hhost : pyStrip host ≠ "")
    (hint : ∀ p ∈ ports, p ≠ PVal.pbad)
    (hnew : gws.find? (fun g => strLower g.name == strLower (pyStrip name) ||
        strLower g.host == strLower (pyStrip host)) = none) :
    ∃ g, addGateway gws gid name host ports = .ok (g, gws ++ [g]) ∧
      g.ports.Nodup ∧ ∀ x ∈ g.ports, 1 ≤ x ∧ x ≤ 65535 := by
  have hall : ports.all (fun p => (pvalInt p).isSome) = true := by
    apply List.all_eq_true.mpr
    intro p hp
    cases p with
    | pint n => simp [pvalInt]
    | pbad => exact absurd rfl (hint _ hp)
  have hparse : parsePorts ports =
      some (sortedUnique ((ports.filterMap pvalInt).filter
        (fun n => decide (0 < n) && decide (n ≤ 65535)))) := by
    simp only [parsePorts, hall, if_true]
  refine ⟨{ id := gid, name := pyStrip name, host := pyStrip host,
            ports := sortedUnique ((ports.filterMap pvalInt).filter
              (fun n => decide (0 < n) && decide (n ≤ 65535))) },
          ?_, sortedUnique_nodup _, ?_⟩
  · simp only [addGateway, hparse, hnew]
    rw [if_neg]
    push_neg
    exact ⟨hname, hhost⟩
  · intro x hx
    rw [mem_sortedUnique, List.mem_filter] at hx
    have := hx.2
    simp only [Bool.and_eq_true, decide_eq_true_eq] at this
    omega

/-- Concrete instance of C7 (amended): creating a gateway with requested
ports `[502, 502, 0]` stores exactly `[502]`. -/
theorem add_gateway_ports_invariant_witness :
    ∃ g, addGateway [] "gw1" "G" "h" [.pint 502, .pint 502, .pint 0] =
        .ok (g, [] ++ [g]) ∧
      g.ports.Nodup ∧ ∀ x ∈ g.ports, 1 ≤ x ∧ x ≤ 65535 :=
  add_gateway_ports_invariant [] "gw1" "G" "h" [.pint 502, .pint 502, .pint 0]
    (by decide) (by decide) (by decide) (by rfl)

/-! ### C8 — create_schema (store.py 52-65, routers/schemas.py 76-127)

`Store.create_schema` strips the name and raises only on an empty result;
the fields list passes through untouched.  Neither the store nor the
schemas router checks field keys against the identifier pattern or for
duplicates.
-/

structure ParentSchema where
  id : String
  name : String
  fields : List SchemaField
deriving Repr, DecidableEq

/-- Creation `Store.create_schema` (store.py 52-65). -/
def create_schema (sid name : String) (fields : List SchemaField) :
    Except String ParentSchema :=
  if pyStrip name = "" then .error "name required"
  else .ok { id := sid, name := pyStrip name, fields := fields }

/-- The identifier pattern `[A-Za-z_][A-Za-z0-9_]*` that the claim requires
field keys to match (stated from the spec; nothing in the code checks it). -/
def isIdentifier (s : String) : Bool :=
  match s.data with
  | [] => false
  | c :: cs => (c.isAlpha || c = '_') && cs.all (fun d => d.isAlpha || d.isDigit || d = '_')

/-- Fields whose key is not an identifier and which repeat within the list. -/
def badFields : List SchemaField := [⟨"1 bad", "float"⟩, ⟨"1 bad", "float"⟩]

/-- C8 counterexample: a payload whose field key `"1 bad"` fails the
identifier pattern and is duplicated is accepted unchanged by
`create_schema`, contradicting the claimed rejections. -/
theorem create_schema_no_validation_ce :
    create_schema "sch_1" "LTPanel" badFields =
      .ok { id := "sch_1", name := "LTPanel", fields := badFields } ∧
    isIdentifier "1 bad" = false ∧
    ¬ (badFields.map SchemaField.key).Nodup := by
  refine ⟨by decide, by decide, by decide⟩

/-- C8 (amended): `create_schema` rejects exactly the payloads whose stripped
name is empty (error `name required`) and otherwise returns the created
schema with the payload's fields unchanged — field keys are not validated
against the identifier pattern and duplicate keys are not rejected. -/
theorem create_schema_amended (sid name : String) (fields : List SchemaField) :
    (pyStrip name = "" → create_schema sid name fields = .error "name required") ∧
    (pyStrip name ≠ "" →
      create_schema sid name fields =
        .ok { id := sid, name := pyStrip name, fields := fields }) := by
  constructor
  · intro h
    simp [create_schema, h]
  · intro h
    simp [create_schema, h]

/-- Concrete instance of C8 (amended): the empty name is rejected; the
non-identifier duplicated keys of `badFields` are accepted. -/
theorem create_schema_amended_witness :
    create_schema "sch_1" "  " [] = .error "name required" ∧
    create_schema "sch_1" "LTPanel" badFields =
      .ok { id := "sch_1", name := "LTPanel", fields := badFields } :=
  ⟨(create_schema_amended "sch_1" "  " []).1 (by decide),
   (create_schema_amended "sch_1" "LTPanel" badFields).2 (by decide)⟩

/-! ### C10 — credential redaction (store.py 413-463)

`Store._redact_device` copies the device dict and overwrites
`params["pass"]` and `params["password"]` with `"***"` when present;
`list_devices` and `get_device` return only redacted copies.  On a dict
with unique keys the two in-place assignments equal this pointwise map.
-/

structure Device where
  id : String
  name : String
  protocol : String
  params : List (String × String)
  status : String := "disconnected"
deriving Repr, DecidableEq

/-- Redaction `Store._redact_device` on the params dict. -/
def redactParams (ps : List (String × String)) : List (String × String) :=
  ps.map (fun kv => if kv.1 = "pass" ∨ kv.1 = "password" then (kv.1, "***") else kv)

def redactDevice (d : Device) : Device := { d with params := redactParams d.params }

/-- Listing `Store.list_devices` (store.py 413-415). -/
def listDevices (devs : List Device) : List Device := devs.map redactDevice

/-- Lookup `Store.get_device` (store.py 417-420). -/
def getDevice (devs : List Device) (did : String) : Option Device :=
  (devs.find? (fun d => d.id == did)).map redactDevice

theorem redactParams_secret (ps : List (String × String)) (k v : String)
    (hk : k = "pass" ∨ k = "password") (h : dictGet (redactParams ps) k = some v) :
    v = "***" := by
  induction ps with
  | nil => simp [redactParams, dictGet] at h
  | cons kv rest ih =>
    by_cases hkv : kv.1 = "pass" ∨ kv.1 = "password"
    · rw [redactParams, List.map_cons, if_pos hkv] at h
      by_cases hhead : kv.1 = k
      · rw [dictGet, if_pos hhead] at h
        exact (Option.some_inj.mp h).symm
      · rw [dictGet, if_neg hhead] at h
        exact ih h
    · rw [redactParams, List.map_cons, if_neg hkv] at h
      have hhead : kv.1 ≠ k := by
        intro e
        rw [e] at hkv
        exact hkv hk
      rw [dictGet, if_neg hhead] at h
      exact ih h

theorem redactParams_dictSet_secret (ps : List (String × String)) (k v w : String)
    (hk : k = "pass" ∨ k = "password") :
    redactParams (dictSet ps k v) = redactParams (dictSet ps k w) := by
  induction ps with
  | nil => simp [dictSet, redactParams, hk]
  | cons kv rest ih =>
    by_cases h : kv.1 = k
    · rw [dictSet, if_pos h, dictSet, if_pos h]
      rw [redactParams, List.map_cons, redactParams, List.map_cons]
      rw [if_pos (h ▸ hk), if_pos (h ▸ hk)]
    · rw [dictSet, if_neg h, dictSet, if_neg h]
      rw [redactParams, List.map_cons, redactParams, List.map_cons]
      have ih' := ih
      unfold redactParams at ih'
      rw [ih']

/-- C10: every device returned by `list_devices` or `get_device` carries
`"***"` wherever its params hold a `pass` or `password` entry, and the output
of `list_devices` is unchanged when any one device's stored `pass`/`password`
value is replaced — reads never disclose credentials. -/
theorem device_reads_redact_credentials :
    (∀ (devs : List Device) (d : Device), d ∈ listDevices devs →
      ∀ k v, (k = "pass" ∨ k = "password") → dictGet d.params k = some v → v = "***") ∧
    (∀ (devs : List Device) (did : String) (d : Device), getDevice devs did = some d →
      ∀ k v, (k = "pass" ∨ k = "password") → dictGet d.params k = some v → v = "***") ∧
    (∀ (pre post : List Device) (d : Device) (k v₁ v₂ : String),
      (k = "pass" ∨ k = "password") →
      listDevices (pre ++ { d with params := dictSet d.params k v₁ } :: post) =
        listDevices (pre ++ { d with params := dictSet d.params k v₂ } :: post)) := by
  refine ⟨?_, ?_, ?_⟩
  · intro devs d hd k v hk h
    rcases List.mem_map.mp hd with ⟨d₀, _, rfl⟩
    exact redactParams_secret d₀.params k v hk h
  · intro devs did d hd k v hk h
    rcases Option.map_eq_some'.mp hd with ⟨d₀, _, rfl⟩
    exact redactParams_secret d₀.params k v hk h
  · intro pre post d k v₁ v₂ hk
    unfold listDevices
    rw [List.map_append, List.map_append, List.map_cons, List.map_cons]
    have : redactDevice { d with params := dictSet d.params k v₁ } =
        redactDevice { d with params := dictSet d.params k v₂ } := by
      unfold redactDevice
      simp only [redactParams_dictSet_secret d.params k v₁ v₂ hk]
    rw [this]

/-- Concrete instance of C10: a device with password `"hunter2"` lists with
`"***"`, and listing is identical when the password is `"hunter3"`. -/
theorem device_reads_redact_credentials_witness :
    (∀ k v, (k = "pass" ∨ k = "password") →
      dictGet (redactDevice ⟨"dev1", "D1", "opcua",
        [("endpoint", "opc.tcp://127.0.0.1:4840"), ("password", "hunter2")], "disconnected"⟩).params
        k = some v → v = "***") ∧
    listDevices ([] ++ { (⟨"dev1", "D1", "opcua", [("endpoint", "e")], "disconnected"⟩ : Device) with
        params := dictSet [("endpoint", "e")] "password" "hunter2" } :: []) =
      listDevices ([] ++ { (⟨"dev1", "D1", "opcua", [("endpoint", "e")], "disconnected"⟩ : Device) with
        params := dictSet [("endpoint", "e")] "password" "hunter3" } :: []) := by
  constructor
  · intro k v hk h
    exact device_reads_redact_credentials.1
      [⟨"dev1", "D1", "opcua",
        [("endpoint", "opc.tcp://127.0.0.1:4840"), ("password", "hunter2")], "disconnected"⟩]
      _ (List.mem_map.mpr ⟨_, List.mem_singleton.mpr rfl, rfl⟩) k v hk h
  · exact device_reads_redact_credentials.2.2 [] [] _ "password" "hunter2" "hunter3"
      (Or.inr rfl)

end PlcLogger
